import Mathlib

/-!
Shallow embedding of the configuration-resolution and remote-tag-checking
core of the ecr-image-checker repository (internal/checker, terminal
revision: per-target merge, validate, addCalculatedFields,
checkECRImageTags, filterMissingTags, outputGitHubJSON).

Go pointers to strings are modelled as Option String; Go maps keyed by
path are modelled as association lists whose order stands for the
(arbitrary) Go map iteration order; Go slices are Lean lists.  Pointer
dereference is modelled in the Option monad, so a nil dereference (a Go
panic) is the value none.  External AWS calls are modelled by the
sequence of responses the server would return.
-/

/-- Go type Target: the per-(account, region, role) record of an image.
The three leading fields are the YAML-borne *string pointers; the rest
are calculated fields whose Go zero values are the defaults here. -/
structure Target where
  awsAccountId : Option String := none
  awsRegion : Option String := none
  awsRoleName : Option String := none
  awsRoleARN : String := ""
  fullImageRef : String := ""
  remoteTagMissing : Bool := false
  workingDirectory : String := ""
  targetPlatformStr : String := ""
  buildArgsStr : String := ""
deriving Repr, DecidableEq

/-- Go type repoConfig: one record per image directory, also used for the
defaults file.  BuildArgs is a Go map that distinguishes nil from empty,
hence Option of an association list; Targets is a slice of pointers,
where nil and empty behave identically in every use, hence a plain list. -/
structure repoConfig where
  defaultAwsAccountId : Option String := none
  defaultRegion : Option String := none
  defaultAwsRoleName : Option String := none
  repoName : Option String := none
  repoTag : Option String := none
  targetPlatforms : List String := []
  buildArgs : Option (List (String × String)) := none
  targets : List Target := []
deriving Repr, DecidableEq

/-- Go func readStrPointer: dereference with empty-string fallback. -/
def readStrPointer : Option String → String
  | none => ""
  | some s => s

/-- Go func strPtrEmpty: nil pointer or empty string. -/
def strPtrEmpty : Option String → Bool
  | none => true
  | some s => s == ""

/-- The pattern `ptr != nil && len(*ptr) > 0` used for the default fields
in mergeRepoConfig and in validate. -/
def strPtrSet : Option String → Bool
  | none => false
  | some s => decide (0 < s.length)

/-- The pattern `ptr == nil || len(*ptr) == 0` used for the per-target
fields in validate. -/
def strPtrNilOrLenZero : Option String → Bool
  | none => true
  | some s => decide (s.length = 0)

/-- Body of the per-target loop of mergeRepoConfig: adopt each of the
three default fields only when the corresponding target pointer is nil
and the default is non-nil and non-empty. -/
def mergeTarget (defaultConf : repoConfig) (target : Target) : Target :=
  let target :=
    if target.awsAccountId = none ∧ strPtrSet defaultConf.defaultAwsAccountId then
      { target with awsAccountId := defaultConf.defaultAwsAccountId }
    else target
  let target :=
    if target.awsRegion = none ∧ strPtrSet defaultConf.defaultRegion then
      { target with awsRegion := defaultConf.defaultRegion }
    else target
  let target :=
    if target.awsRoleName = none ∧ strPtrSet defaultConf.defaultAwsRoleName then
      { target with awsRoleName := defaultConf.defaultAwsRoleName }
    else target
  target

/-- Go func mergeRepoConfig (terminal revision): per-field default
adoption on every declared target, then synthesis of a single target
from the defaults when the child declares no targets at all; the
synthesis only requires the two default pointers to be non-nil, and the
default role pointer is copied whenever it is non-nil. -/
def mergeRepoConfig (defaultConf childRepoConf : repoConfig) : repoConfig :=
  let merged :=
    { childRepoConf with targets := childRepoConf.targets.map (mergeTarget defaultConf) }
  if merged.targets.length = 0 then
    match defaultConf.defaultAwsAccountId, defaultConf.defaultRegion with
    | some a, some r =>
        { merged with
            targets := [{ awsAccountId := some a, awsRegion := some r,
                          awsRoleName := defaultConf.defaultAwsRoleName }] }
    | _, _ => merged
  else merged

/-- The target_platforms entry loop of validate, carrying the index used
in the error message. -/
def validatePlatformEntries (key : String) : Nat → List String → Except String Unit
  | _, [] => Except.ok ()
  | idx, p :: rest =>
    if p = "" then
      Except.error ("target_platforms cannot contain empty values for " ++ key
        ++ " index " ++ toString idx)
    else validatePlatformEntries key (idx + 1) rest

/-- The build_args value loop of validate. -/
def validateBuildArgEntries (key : String) : List (String × String) → Except String Unit
  | [] => Except.ok ()
  | (k, arg) :: rest =>
    if arg.trim = "" then
      Except.error ("build_args must have no empty values for " ++ key ++ " key " ++ k)
    else validateBuildArgEntries key rest

/-- The build_args checks of validate: a nil map is accepted, a non-nil
empty map is rejected, and every value must be non-blank. -/
def validateBuildArgs (key : String) : Option (List (String × String)) → Except String Unit
  | none => Except.ok ()
  | some l =>
    if l.length = 0 then
      Except.error ("build_args must have at one key/pair when defined for " ++ key)
    else validateBuildArgEntries key l

/-- The per-target loop of validate: each target needs its account id
and region either explicitly (non-nil, non-empty) or via the default
fields of the same record. -/
def validateTargetEntries (key : String) (accSet regSet : Bool) :
    Nat → List Target → Except String Unit
  | _, [] => Except.ok ()
  | idx, t :: rest =>
    if strPtrNilOrLenZero t.awsAccountId ∧ accSet = false then
      Except.error ("aws_account_id not set for " ++ key ++ " target index "
        ++ toString idx ++ " and there is no default set")
    else if strPtrNilOrLenZero t.awsRegion ∧ regSet = false then
      Except.error ("aws_region not set for " ++ key ++ " target index "
        ++ toString idx ++ " and there is no default set")
    else validateTargetEntries key accSet regSet (idx + 1) rest

/-- The body of the per-record loop of validate, in source order:
repo_name, repo_tag, targets non-empty, target_platforms non-empty, each
platform entry non-empty, build_args checks, then the per-target
account-id and region checks against the default fields of this very record. -/
def validateRecord (key : String) (repo : repoConfig) : Except String Unit :=
  if strPtrEmpty repo.repoName then
    Except.error ("repo_name not set for " ++ key)
  else if strPtrEmpty repo.repoTag then
    Except.error ("repo_tag not set for " ++ key)
  else if repo.targets.length = 0 then
    Except.error ("targets not set for " ++ key ++ " either at the child level or via defaults")
  else if repo.targetPlatforms.length = 0 then
    Except.error ("target_platforms not set for " ++ key)
  else
    match validatePlatformEntries key 0 repo.targetPlatforms with
    | Except.error e => Except.error e
    | Except.ok () =>
      match validateBuildArgs key repo.buildArgs with
      | Except.error e => Except.error e
      | Except.ok () =>
        validateTargetEntries key (strPtrSet repo.defaultAwsAccountId)
          (strPtrSet repo.defaultRegion) 0 repo.targets

/-- Go method config.validate: first failure over the record collection
wins (the list order stands for the Go map iteration order). -/
def validate : List (String × repoConfig) → Except String Unit
  | [] => Except.ok ()
  | (key, repo) :: rest =>
    match validateRecord key repo with
    | Except.error e => Except.error e
    | Except.ok () => validate rest

/-- The characters before the last slash, or none when there is no
slash. -/
def dirChars : List Char → Option (List Char)
  | [] => none
  | c :: rest =>
    match dirChars rest with
    | some ds => some (c :: ds)
    | none => if c = '/' then some [] else none

/-- Model of Go path.Dir for the keys in use: everything before the last
slash, or a dot when there is no slash. -/
def pathDir (p : String) : String :=
  match dirChars p.data with
  | some ds => String.mk ds
  | none => "."

/-- The build_args flattening of addCalculatedFields: a space before
every entry except the first, each entry a --build-arg flag. -/
def buildArgsFlatten : List (String × String) → String
  | [] => ""
  | (k, v) :: rest =>
    rest.foldl (fun acc kv => acc ++ " " ++ "--build-arg " ++ kv.1 ++ "=" ++ kv.2)
      ("--build-arg " ++ k ++ "=" ++ v)

/-- Go len of a possibly-nil map. -/
def mapLen : Option (List (String × String)) → Nat
  | none => 0
  | some l => l.length

/-- Body of the per-target loop of addCalculatedFields.  Every Go
pointer dereference is a bind in the Option monad, so the result is none
exactly when the Go code would dereference a nil pointer. -/
def addCalculatedFieldsTarget (key : String) (repo : repoConfig) (target : Target) :
    Option Target := do
  let target ←
    match target.awsRoleName with
    | some roleName =>
      if 0 < roleName.length then do
        let acc ← target.awsAccountId
        pure { target with awsRoleARN := "arn:aws:iam::" ++ acc ++ ":role/" ++ roleName }
      else pure target
    | none => pure target
  let acc ← target.awsAccountId
  let reg ← target.awsRegion
  let name ← repo.repoName
  let tag ← repo.repoTag
  let target :=
    { target with
        fullImageRef := acc ++ ".dkr.ecr." ++ reg ++ ".amazonaws.com/" ++ name ++ ":" ++ tag }
  let target := { target with workingDirectory := pathDir key }
  let target :=
    if 0 < repo.targetPlatforms.length then
      { target with targetPlatformStr := String.intercalate "," repo.targetPlatforms }
    else target
  let target :=
    if 0 < mapLen repo.buildArgs then
      { target with
          buildArgsStr := target.buildArgsStr
            ++ buildArgsFlatten (repo.buildArgs.getD []) }
    else target
  pure target

/-- The per-target loop of addCalculatedFields over one record. -/
def addCalculatedFieldsTargets (key : String) (repo : repoConfig) :
    List Target → Option (List Target)
  | [] => some []
  | t :: rest => do
    let t2 ← addCalculatedFieldsTarget key repo t
    let rest2 ← addCalculatedFieldsTargets key repo rest
    pure (t2 :: rest2)

/-- Go method config.addCalculatedFields restricted to one record. -/
def addCalculatedFieldsRepo (key : String) (repo : repoConfig) : Option repoConfig := do
  let ts ← addCalculatedFieldsTargets key repo repo.targets
  pure { repo with targets := ts }

/-- Go method config.addCalculatedFields over the record collection. -/
def addCalculatedFields : List (String × repoConfig) → Option (List (String × repoConfig))
  | [] => some []
  | (key, repo) :: rest => do
    let r ← addCalculatedFieldsRepo key repo
    let rs ← addCalculatedFields rest
    pure ((key, r) :: rs)

/-- One entry of an ECR ListImages page: the image id with its optional
tag pointer. -/
structure ImageId where
  imageTag : Option String := none
deriving Repr, DecidableEq

/-- One ECR ListImages response page: the image ids plus the optional
continuation token. -/
structure ListPage where
  imageIds : List ImageId := []
  nextToken : Option String := none
deriving Repr, DecidableEq

/-- The inner scan of one page in checkECRImageTags: some image id has a
non-nil tag equal to the repo tag. -/
def pageHasTag (repoTag : String) (page : ListPage) : Bool :=
  page.imageIds.any fun image =>
    match image.imageTag with
    | some t => t == repoTag
    | none => false

/-- The pagination loop of checkECRImageTags for a single target.  The
list is the sequence of results the successive ListImages calls would
return; the loop consumes one entry per request.  The result pairs the
outcome of the loop (the remoteTagMissing value, or the wrapped API
error) with the number of requests issued.  The empty-list case is a
model artifact: a well-formed response trace (wfTrace) is never
exhausted by the loop. -/
def listLoop (repoName repoTag : String) :
    List (Except String ListPage) → Except String Bool × Nat
  | [] => (Except.ok true, 0)
  | Except.error e :: _ =>
    (Except.error ("listing Docker tags for " ++ repoName ++ ": " ++ e), 1)
  | Except.ok page :: rest =>
    if pageHasTag repoTag page then (Except.ok false, 1)
    else
      match page.nextToken with
      | none => (Except.ok true, 1)
      | some _ =>
        let r := listLoop repoName repoTag rest
        (r.1, r.2 + 1)

/-- The per-target tail of checkECRImageTags: on success the target
record keeps its flag unless the tag was missing, in which case the flag
is set; on a listing error the error is returned and the target record
is not updated at all. -/
def checkTargetTags (repoName repoTag : String) (target : Target)
    (responses : List (Except String ListPage)) : Except String Target :=
  match (listLoop repoName repoTag responses).1 with
  | Except.error e => Except.error e
  | Except.ok true => Except.ok { target with remoteTagMissing := true }
  | Except.ok false => Except.ok target

/-- A well-formed response trace of successful pages: non-empty, every
page before the last carries a continuation token, and the last page
carries none. -/
def wfTrace : List ListPage → Bool
  | [] => false
  | [p] => p.nextToken.isNone
  | p :: q :: rest => p.nextToken.isSome && wfTrace (q :: rest)

/-- The credential decision of setupECRClient: the region the client is
built for, whether a role-assumption call is made, and the role ARN
passed to it when it is.  The region dereference is in the Option monad
as in the source. -/
structure ECRClientConfig where
  region : String
  assumeRole : Bool
  roleARN : String
deriving Repr, DecidableEq

/-- Go method config.setupECRClient: assume the role only when the role
name pointer is non-nil and the value non-empty; otherwise use the
ambient credential chain. -/
def setupECRClient (target : Target) : Option ECRClientConfig := do
  let region ← target.awsRegion
  match target.awsRoleName with
  | some roleName =>
    if roleName ≠ "" then
      pure { region := region, assumeRole := true, roleARN := target.awsRoleARN }
    else
      pure { region := region, assumeRole := false, roleARN := "" }
  | none => pure { region := region, assumeRole := false, roleARN := "" }

/-- Go func filterMissingTags: flatten the targets whose flag is set,
record by record. -/
def filterMissingTags : List (String × repoConfig) → List Target
  | [] => []
  | (_, repo) :: rest =>
    (repo.targets.filter fun t => t.remoteTagMissing) ++ filterMissingTags rest

/-- Go func outputGitHubJSON; the JSON marshalling call is the external
collaborator, passed in as a function. -/
def outputGitHubJSON (marshal : List Target → Except String String)
    (missingTags : List Target) : Except String String :=
  if missingTags.length = 0 then Except.ok "targets=[]"
  else
    match marshal missingTags with
    | Except.error e => Except.error ("marshalling JSON: " ++ e)
    | Except.ok b => Except.ok ("targets=" ++ b ++ "\n")

/-- The count the aggregation claim compares against: targets across all
records whose flag is set. -/
def countMissingTargets (repos : List (String × repoConfig)) : Nat :=
  (repos.map fun kr => kr.2.targets.countP fun t => t.remoteTagMissing).sum

deriving instance DecidableEq for Except

/-- Concrete defaults record (as parsed from config-defaults.yml) with
all three fallback values populated. -/
def demoDefaults : repoConfig :=
  { defaultAwsAccountId := some "111111111111"
    defaultRegion := some "eu-west-1"
    defaultAwsRoleName := some "deploy-role" }

/-- Concrete child record that declares no targets at all. -/
def demoChildNoTargets : repoConfig :=
  { repoName := some "repo-1"
    repoTag := some "alpine"
    targetPlatforms := ["linux/amd64"]
    targets := [] }

/-- Concrete child record with two declared targets: the first overrides
the account id and leaves the region to the defaults, the second does
the opposite. -/
def demoChildTargets : repoConfig :=
  { repoName := some "repo-1"
    repoTag := some "alpine"
    targetPlatforms := ["linux/amd64"]
    targets :=
      [ { awsAccountId := some "222222222222", awsRegion := none, awsRoleName := none },
        { awsAccountId := none, awsRegion := some "us-east-1", awsRoleName := none } ] }

/-- Concrete child record whose single target declares its account id
and region as explicit empty strings while carrying non-empty
record-level default fields. -/
def cexChildEmptyOverride : repoConfig :=
  { defaultAwsAccountId := some "111111111111"
    defaultRegion := some "eu-west-1"
    repoName := some "repo-1"
    repoTag := some "alpine"
    targetPlatforms := ["linux/amd64"]
    targets := [{ awsAccountId := some "", awsRegion := some "", awsRoleName := none }] }

/-- Concrete defaults record carrying no fallback values at all. -/
def cexDefaultsBare : repoConfig := {}

/-- Concrete child record whose single target declares none of its
fields while the record itself carries non-empty default fields. -/
def cexChildNilTarget : repoConfig :=
  { defaultAwsAccountId := some "111111111111"
    defaultRegion := some "eu-west-1"
    repoName := some "repo-1"
    repoTag := some "alpine"
    targetPlatforms := ["linux/amd64"]
    targets := [{ awsAccountId := none, awsRegion := none, awsRoleName := none }] }

/-- Concrete record whose platform list contains an empty entry. -/
def cexChildEmptyPlatform : repoConfig :=
  { repoName := some "repo-1"
    repoTag := some "alpine"
    targetPlatforms := ["linux/amd64", ""]
    targets := [{ awsAccountId := some "111111111111", awsRegion := some "eu-west-1" }] }

/-- Concrete two-page response trace: the first page misses the tag and
carries a continuation token, the second page carries the tag. -/
def demoPages : List ListPage :=
  [ { imageIds := [{ imageTag := some "latest" }], nextToken := some "tok1" },
    { imageIds := [{ imageTag := some "alpine" }, { imageTag := none }], nextToken := none } ]

/-- Concrete single successful page without the tag, used before an
injected API failure. -/
def demoOkPage : ListPage :=
  { imageIds := [{ imageTag := some "latest" }], nextToken := some "tok1" }

/-- Concrete record collection in which no target is flagged missing. -/
def demoReposNoneMissing : List (String × repoConfig) :=
  [ ("images/repo-1/config.yml",
     { repoName := some "repo-1"
       repoTag := some "alpine"
       targetPlatforms := ["linux/amd64"]
       targets := [{ awsAccountId := some "111111111111", awsRegion := some "eu-west-1" }] }) ]

/-- Concrete record collection with one record holding one missing
target and another record holding one present plus one missing target. -/
def demoReposSomeMissing : List (String × repoConfig) :=
  [ ("images/repo-1/config.yml",
     { repoName := some "repo-1"
       repoTag := some "alpine"
       targetPlatforms := ["linux/amd64"]
       targets := [{ awsAccountId := some "111111111111", awsRegion := some "eu-west-1",
                     remoteTagMissing := true }] }),
    ("images/repo-2/config.yml",
     { repoName := some "repo-2"
       repoTag := some "3.20"
       targetPlatforms := ["linux/amd64"]
       targets := [{ awsAccountId := some "111111111111", awsRegion := some "eu-west-1",
                     remoteTagMissing := false },
                   { awsAccountId := some "333333333333", awsRegion := some "us-east-1",
                     remoteTagMissing := true }] }) ]

/-- Concrete stand-in for the external JSON marshaller. -/
def demoMarshal : List Target → Except String String :=
  fun ts => Except.ok (toString ts.length)

/-- Concrete record for exercising the derived-field stage. -/
def demoRepoCalc : repoConfig :=
  { repoName := some "repo-1"
    repoTag := some "alpine"
    targetPlatforms := ["linux/arm64", "linux/amd64"]
    buildArgs := some [("VERSION", "1.2.3")]
    targets := [{ awsAccountId := some "111111111111", awsRegion := some "eu-west-1",
                  awsRoleName := some "deploy-role" }] }

/-- Concrete fully resolved target for the derived-field stage. -/
def demoTargetCalc : Target :=
  { awsAccountId := some "111111111111", awsRegion := some "eu-west-1",
    awsRoleName := some "deploy-role" }

/-- Concrete target declaring its role name as an explicit empty string. -/
def demoEmptyRoleTarget : Target := { awsRoleName := some "" }

theorem strBeqEmpty_eq_decide_length (s : String) : (s == "") = decide (s.length = 0) := by
  cases s with
  | mk data =>
    cases data with
    | nil => rfl
    | cons c cs =>
      simp [String.length]
      intro h
      exact absurd (congrArg String.data h) (by simp)

theorem strPtrNilOrLenZero_eq_strPtrEmpty (o : Option String) :
    strPtrNilOrLenZero o = strPtrEmpty o := by
  cases o with
  | none => rfl
  | some s => simp only [strPtrNilOrLenZero, strPtrEmpty, strBeqEmpty_eq_decide_length]

theorem strPtrSet_eq_not_strPtrEmpty (o : Option String) : strPtrSet o = !strPtrEmpty o := by
  cases o with
  | none => rfl
  | some s =>
    simp only [strPtrSet, strPtrEmpty, strBeqEmpty_eq_decide_length]
    by_cases h : s.length = 0
    · simp [h]
    · simp [h, Nat.pos_of_ne_zero h]

theorem mergeTarget_awsAccountId (D : repoConfig) (t : Target) :
    (mergeTarget D t).awsAccountId =
      if t.awsAccountId = none ∧ strPtrSet D.defaultAwsAccountId then D.defaultAwsAccountId
      else t.awsAccountId := by
  unfold mergeTarget
  dsimp only
  split_ifs <;> simp_all

theorem mergeTarget_awsRegion (D : repoConfig) (t : Target) :
    (mergeTarget D t).awsRegion =
      if t.awsRegion = none ∧ strPtrSet D.defaultRegion then D.defaultRegion
      else t.awsRegion := by
  unfold mergeTarget
  dsimp only
  split_ifs <;> simp_all

theorem mergeTarget_awsRoleName (D : repoConfig) (t : Target) :
    (mergeTarget D t).awsRoleName =
      if t.awsRoleName = none ∧ strPtrSet D.defaultAwsRoleName then D.defaultAwsRoleName
      else t.awsRoleName := by
  unfold mergeTarget
  dsimp only
  split_ifs <;> simp_all

theorem mergeTarget_awsRoleARN (D : repoConfig) (t : Target) :
    (mergeTarget D t).awsRoleARN = t.awsRoleARN := by
  unfold mergeTarget
  dsimp only
  split_ifs <;> rfl

theorem mergeRepoConfig_preserves (D C : repoConfig) :
    (mergeRepoConfig D C).defaultAwsAccountId = C.defaultAwsAccountId ∧
    (mergeRepoConfig D C).defaultRegion = C.defaultRegion ∧
    (mergeRepoConfig D C).defaultAwsRoleName = C.defaultAwsRoleName ∧
    (mergeRepoConfig D C).repoName = C.repoName ∧
    (mergeRepoConfig D C).repoTag = C.repoTag := by
  unfold mergeRepoConfig
  dsimp only
  split_ifs with h
  · cases hA : D.defaultAwsAccountId <;> cases hR : D.defaultRegion <;> simp
  · simp

theorem validateTargetEntries_ok (key : String) (accSet regSet : Bool) (idx : Nat)
    (ts : List Target)
    (h : validateTargetEntries key accSet regSet idx ts = Except.ok ()) :
    ∀ t ∈ ts,
      (accSet = false → strPtrNilOrLenZero t.awsAccountId = false) ∧
      (regSet = false → strPtrNilOrLenZero t.awsRegion = false) := by
  revert h
  induction ts generalizing idx with
  | nil => intro _ t ht; simp at ht
  | cons t0 rest ih =>
    intro h t ht
    unfold validateTargetEntries at h
    split_ifs at h with h1 h2
    rcases List.mem_cons.mp ht with rfl | hmem
    · constructor
      · intro hacc
        by_contra hne
        exact h1 ⟨eq_true_of_ne_false fun hf => hne hf, hacc⟩
      · intro hreg
        by_contra hne
        exact h2 ⟨eq_true_of_ne_false fun hf => hne hf, hreg⟩
    · exact ih (idx + 1) h t hmem

theorem validateRecord_ok_targetEntries (key : String) (repo : repoConfig)
    (h : validateRecord key repo = Except.ok ()) :
    validateTargetEntries key (strPtrSet repo.defaultAwsAccountId)
      (strPtrSet repo.defaultRegion) 0 repo.targets = Except.ok () := by
  unfold validateRecord at h
  split_ifs at h
  split at h
  · simp at h
  · split at h
    · simp at h
    · exact h

/-- C1 (amended): after resolution (mergeRepoConfig) followed by a
successful validate, every target of the merged record has a non-empty
account id and region, provided the child record carries no record-level
default account id or region of its own (the fields validate consults);
the unrestricted claim fails, see the counterexample. -/
theorem resolve_validate_fields_nonempty (D C : repoConfig) (key : String)
    (hA : strPtrEmpty C.defaultAwsAccountId = true)
    (hR : strPtrEmpty C.defaultRegion = true)
    (hv : validateRecord key (mergeRepoConfig D C) = Except.ok ()) :
    ∀ t ∈ (mergeRepoConfig D C).targets,
      strPtrEmpty t.awsAccountId = false ∧ strPtrEmpty t.awsRegion = false := by
  have hpres := mergeRepoConfig_preserves D C
  have hte := validateRecord_ok_targetEntries key _ hv
  rw [hpres.1, hpres.2.1] at hte
  have hAset : strPtrSet C.defaultAwsAccountId = false := by
    rw [strPtrSet_eq_not_strPtrEmpty, hA]; rfl
  have hRset : strPtrSet C.defaultRegion = false := by
    rw [strPtrSet_eq_not_strPtrEmpty, hR]; rfl
  rw [hAset, hRset] at hte
  intro t ht
  have hspec := validateTargetEntries_ok key false false 0 _ hte t ht
  exact ⟨by rw [← strPtrNilOrLenZero_eq_strPtrEmpty]; exact hspec.1 rfl,
         by rw [← strPtrNilOrLenZero_eq_strPtrEmpty]; exact hspec.2 rfl⟩

/-- C1 witness: a concrete defaults record and child record without
record-level defaults on which the amended invariant is checked. -/
theorem resolve_validate_fields_nonempty_witness :
    strPtrEmpty demoChildTargets.defaultAwsAccountId = true ∧
    strPtrEmpty demoChildTargets.defaultRegion = true ∧
    validateRecord "images/repo-1/config.yml"
      (mergeRepoConfig demoDefaults demoChildTargets) = Except.ok () ∧
    ∀ t ∈ (mergeRepoConfig demoDefaults demoChildTargets).targets,
      strPtrEmpty t.awsAccountId = false ∧ strPtrEmpty t.awsRegion = false :=
  ⟨rfl, rfl, by decide,
   resolve_validate_fields_nonempty demoDefaults demoChildTargets
     "images/repo-1/config.yml" rfl rfl (by decide)⟩

/-- C1 counterexample: a child target declaring its account id and
region as explicit empty strings, with non-empty defaults present both
in the defaults record and at the record level, passes resolution and
validation yet keeps the empty account id and region. -/
theorem resolve_validate_empty_override_cex :
    strPtrSet demoDefaults.defaultAwsAccountId = true ∧
    strPtrSet demoDefaults.defaultRegion = true ∧
    validateRecord "images/repo-1/config.yml"
      (mergeRepoConfig demoDefaults cexChildEmptyOverride) = Except.ok () ∧
    ((mergeRepoConfig demoDefaults cexChildEmptyOverride).targets.map
        fun t => strPtrEmpty t.awsAccountId) = [true] ∧
    ((mergeRepoConfig demoDefaults cexChildEmptyOverride).targets.map
        fun t => strPtrEmpty t.awsRegion) = [true] := by
  decide

/-- C2: for a child with an empty (or nil) target list, mergeRepoConfig
synthesizes exactly one target from the two defaults pointers when both
are non-nil, attaching the default role pointer as it stands, and
synthesizes nothing when either defaults pointer is nil. -/
theorem mergeRepoConfig_synthesis (D C : repoConfig) (h : C.targets = []) :
    (∀ a r, D.defaultAwsAccountId = some a → D.defaultRegion = some r →
      (mergeRepoConfig D C).targets =
        [{ awsAccountId := some a, awsRegion := some r,
           awsRoleName := D.defaultAwsRoleName }]) ∧
    ((D.defaultAwsAccountId = none ∨ D.defaultRegion = none) →
      (mergeRepoConfig D C).targets = []) := by
  constructor
  · intro a r ha hr
    unfold mergeRepoConfig
    simp [h, ha, hr]
  · intro hor
    unfold mergeRepoConfig
    rcases hor with hn | hn <;> simp [h, hn]

/-- C2 witness: the synthesized target for a concrete defaults record
and a concrete child without targets. -/
theorem mergeRepoConfig_synthesis_witness :
    demoChildNoTargets.targets = [] ∧
    (mergeRepoConfig demoDefaults demoChildNoTargets).targets =
      [{ awsAccountId := some "111111111111", awsRegion := some "eu-west-1",
         awsRoleName := some "deploy-role" }] :=
  ⟨rfl, (mergeRepoConfig_synthesis demoDefaults demoChildNoTargets rfl).1
    "111111111111" "eu-west-1" rfl rfl⟩

/-- C6: resolution applies mergeTarget to every declared target in
place; an explicitly declared (non-nil) account id is never changed, a
nil account id adopts a set default, and an explicitly declared region
is kept even while the account id is adopted (per-field adoption). -/
theorem mergeRepoConfig_per_field (D C : repoConfig) (i : Nat)
    (h : i < C.targets.length) :
    ∃ h2 : i < (mergeRepoConfig D C).targets.length,
      (mergeRepoConfig D C).targets.get ⟨i, h2⟩ = mergeTarget D (C.targets.get ⟨i, h⟩) ∧
      (∀ a, (C.targets.get ⟨i, h⟩).awsAccountId = some a →
        (mergeTarget D (C.targets.get ⟨i, h⟩)).awsAccountId = some a) ∧
      ((C.targets.get ⟨i, h⟩).awsAccountId = none → strPtrSet D.defaultAwsAccountId = true →
        (mergeTarget D (C.targets.get ⟨i, h⟩)).awsAccountId = D.defaultAwsAccountId) ∧
      (∀ r, (C.targets.get ⟨i, h⟩).awsRegion = some r →
        (mergeTarget D (C.targets.get ⟨i, h⟩)).awsRegion = some r) := by
  have hne : C.targets.length ≠ 0 := Nat.pos_iff_ne_zero.mp (Nat.lt_of_le_of_lt (Nat.zero_le i) h)
  have htg : (mergeRepoConfig D C).targets = C.targets.map (mergeTarget D) := by
    unfold mergeRepoConfig
    simp [List.length_map, hne]
  have h2 : i < (mergeRepoConfig D C).targets.length := by
    rw [htg, List.length_map]; exact h
  refine ⟨h2, ?_, ?_, ?_, ?_⟩
  · simp only [List.get_eq_getElem] at h2 ⊢
    simp [htg]
  · intro a ha
    simp only [List.get_eq_getElem] at ha
    rw [mergeTarget_awsAccountId]
    simp [ha]
  · intro ha hset
    simp only [List.get_eq_getElem] at ha
    rw [mergeTarget_awsAccountId]
    simp [ha, hset]
  · intro r hr
    simp only [List.get_eq_getElem] at hr
    rw [mergeTarget_awsRegion]
    simp [hr]

/-- C6 witness: in the concrete merged record the first target keeps its
explicit account id, and the second adopts the default account id while
keeping its own region. -/
theorem mergeRepoConfig_per_field_witness :
    (demoChildTargets.targets.get ⟨0, by decide⟩).awsAccountId = some "222222222222" ∧
    (mergeTarget demoDefaults (demoChildTargets.targets.get ⟨0, by decide⟩)).awsAccountId =
      some "222222222222" ∧
    (demoChildTargets.targets.get ⟨1, by decide⟩).awsAccountId = none ∧
    (mergeTarget demoDefaults (demoChildTargets.targets.get ⟨1, by decide⟩)).awsAccountId =
      some "111111111111" ∧
    (mergeTarget demoDefaults (demoChildTargets.targets.get ⟨1, by decide⟩)).awsRegion =
      some "us-east-1" := by
  obtain ⟨h0, heq0, hexp0, hadopt0, hreg0⟩ :=
    mergeRepoConfig_per_field demoDefaults demoChildTargets 0 (by decide)
  obtain ⟨h1, heq1, hexp1, hadopt1, hreg1⟩ :=
    mergeRepoConfig_per_field demoDefaults demoChildTargets 1 (by decide)
  exact ⟨rfl, hexp0 "222222222222" rfl, rfl, hadopt1 rfl (by decide), hreg1 "us-east-1" rfl⟩

theorem listLoop_cons_ok (repoName repoTag : String) (p : ListPage)
    (rest : List (Except String ListPage)) :
    listLoop repoName repoTag (Except.ok p :: rest) =
      if pageHasTag repoTag p then (Except.ok false, 1)
      else
        match p.nextToken with
        | none => (Except.ok true, 1)
        | some _ =>
          ((listLoop repoName repoTag rest).1, (listLoop repoName repoTag rest).2 + 1) := by
  rfl

theorem listLoop_ok_trace (repoName repoTag : String) (pages : List ListPage)
    (h : wfTrace pages = true) :
    (listLoop repoName repoTag (pages.map Except.ok)).1 =
      Except.ok (!pages.any (pageHasTag repoTag)) ∧
    (listLoop repoName repoTag (pages.map Except.ok)).2 =
      min ((pages.takeWhile fun p => !pageHasTag repoTag p).length + 1) pages.length := by
  induction pages with
  | nil => simp [wfTrace] at h
  | cons p rest ih =>
    rw [List.map_cons, listLoop_cons_ok]
    cases rest with
    | nil =>
      have hnone : p.nextToken = none := by
        simpa [wfTrace, Option.isNone_iff_eq_none] using h
      by_cases hp : pageHasTag repoTag p
      · simp [hp, List.takeWhile_cons]
      · simp [hp, hnone, List.takeWhile_cons]
    | cons q rest2 =>
      have hsplit : p.nextToken.isSome = true ∧ wfTrace (q :: rest2) = true := by
        simpa [wfTrace, Bool.and_eq_true] using h
      obtain ⟨tok, htok⟩ := Option.isSome_iff_exists.mp hsplit.1
      obtain ⟨ih1, ih2⟩ := ih hsplit.2
      by_cases hp : pageHasTag repoTag p
      · rw [if_pos hp]
        have hlen : ((q :: rest2).length : Nat) = rest2.length + 1 := rfl
        constructor
        · simp [hp]
        · simp only [List.takeWhile_cons, hp]
          simp only [Bool.not_true]
          simp only [if_neg (by simp : ¬(false = true))]
          simp only [List.length_cons, List.length_nil]
          omega
      · rw [if_neg hp, htok]
        have hpb : pageHasTag repoTag p = false := by simpa using hp
        constructor
        · simpa [hpb] using ih1
        · show (listLoop repoName repoTag (List.map Except.ok (q :: rest2))).2 + 1 = _
          rw [ih2]
          simp [List.takeWhile_cons, hpb]
          omega

/-- C3: over a well-formed page trace the pagination loop reports the
tag as present exactly when some page holds a matching image tag,
reports it missing exactly when no page does, issues requests up to and
including the first matching page and otherwise through the whole trace
(so it stops at the first match and follows continuation tokens only
while no match was found), and the target record ends up flagged
missing exactly when no page matched. -/
theorem checkECRImageTags_pagination (repoName repoTag : String) (t : Target)
    (pages : List ListPage) (hwf : wfTrace pages = true)
    (ht : t.remoteTagMissing = false) :
    ((listLoop repoName repoTag (pages.map Except.ok)).1 = Except.ok false ↔
      ∃ p ∈ pages, pageHasTag repoTag p = true) ∧
    ((listLoop repoName repoTag (pages.map Except.ok)).1 = Except.ok true ↔
      ∀ p ∈ pages, pageHasTag repoTag p = false) ∧
    ((listLoop repoName repoTag (pages.map Except.ok)).2 =
      min ((pages.takeWhile fun p => !pageHasTag repoTag p).length + 1) pages.length) ∧
    (∃ t2, checkTargetTags repoName repoTag t (pages.map Except.ok) = Except.ok t2 ∧
      (t2.remoteTagMissing = true ↔ ∀ p ∈ pages, pageHasTag repoTag p = false)) := by
  obtain ⟨h1, h2⟩ := listLoop_ok_trace repoName repoTag pages hwf
  refine ⟨?_, ?_, h2, ?_⟩
  · rw [h1]
    simp [List.any_eq_true]
  · rw [h1]
    simp [List.any_eq_false]
  · unfold checkTargetTags
    rw [h1]
    cases hany : pages.any (pageHasTag repoTag) with
    | false =>
      refine ⟨{ t with remoteTagMissing := true }, by simp, ?_⟩
      constructor
      · intro _ p hp
        have h3 := List.any_eq_false.mp hany p hp
        simpa using h3
      · intro _
        rfl
    | true =>
      refine ⟨t, by simp, ?_⟩
      constructor
      · intro hf
        rw [ht] at hf
        cases hf
      · intro hall
        obtain ⟨p, hp, hm⟩ := List.any_eq_true.mp hany
        rw [hall p hp] at hm
        cases hm

/-- C3 witness: on a concrete two-page trace whose second page carries
the tag, the loop reports the tag present after exactly two requests. -/
theorem checkECRImageTags_pagination_witness :
    wfTrace demoPages = true ∧
    (listLoop "repo-1" "alpine" (demoPages.map Except.ok)).1 = Except.ok false ∧
    (listLoop "repo-1" "alpine" (demoPages.map Except.ok)).2 = 2 := by
  have hspec := checkECRImageTags_pagination "repo-1" "alpine" {} demoPages (by decide) rfl
  refine ⟨by decide, ?_, ?_⟩
  · exact hspec.1.mpr ⟨demoPages.get ⟨1, by decide⟩, by decide, by decide⟩
  · rw [hspec.2.2.1]
    decide

/-- C4: when a ListImages call fails after any number of matchless
token-carrying pages, the loop stops at the failing request (no later
response is consumed), checkECRImageTags surfaces the wrapped error, and
the per-target processing yields no updated target at all, so the
remoteTagMissing flag is never written from an API failure. -/
theorem checkECRImageTags_error_propagation (repoName repoTag e : String) (t : Target)
    (okPages : List ListPage) (rest : List (Except String ListPage))
    (hok : ∀ p ∈ okPages, pageHasTag repoTag p = false ∧ p.nextToken.isSome = true) :
    listLoop repoName repoTag (okPages.map Except.ok ++ Except.error e :: rest) =
      (Except.error ("listing Docker tags for " ++ repoName ++ ": " ++ e),
        okPages.length + 1) ∧
    checkTargetTags repoName repoTag t (okPages.map Except.ok ++ Except.error e :: rest) =
      Except.error ("listing Docker tags for " ++ repoName ++ ": " ++ e) := by
  have hloop :
      listLoop repoName repoTag (okPages.map Except.ok ++ Except.error e :: rest) =
        (Except.error ("listing Docker tags for " ++ repoName ++ ": " ++ e),
          okPages.length + 1) := by
    induction okPages with
    | nil => rfl
    | cons p ps ih =>
      have hp := hok p (List.mem_cons_self p ps)
      obtain ⟨tok, htok⟩ := Option.isSome_iff_exists.mp hp.2
      rw [List.map_cons, List.cons_append, listLoop_cons_ok, if_neg (by simp [hp.1]), htok]
      rw [ih fun q hq => hok q (List.mem_cons_of_mem p hq)]
      simp [List.length_cons]
  refine ⟨hloop, ?_⟩
  unfold checkTargetTags
  rw [hloop]

/-- C4 witness: a concrete failure on the second request after one
matchless page. -/
theorem checkECRImageTags_error_propagation_witness :
    (∀ p ∈ [demoOkPage], pageHasTag "alpine" p = false ∧ p.nextToken.isSome = true) ∧
    listLoop "repo-1" "alpine" ([demoOkPage].map Except.ok ++ Except.error "boom" :: []) =
      (Except.error ("listing Docker tags for repo-1: boom"), 2) ∧
    checkTargetTags "repo-1" "alpine" {} ([demoOkPage].map Except.ok ++ Except.error "boom" :: []) =
      Except.error ("listing Docker tags for repo-1: boom") := by
  have hspec := checkECRImageTags_error_propagation "repo-1" "alpine" "boom" {}
    [demoOkPage] [] (by decide)
  exact ⟨by decide, by rw [hspec.1]; decide, by rw [hspec.2]; decide⟩

/-- C5: the aggregated list holds exactly the flagged targets — its
length is the count of flagged targets across all records, every member
is flagged (so unflagged targets and records without flagged targets
contribute nothing) — and when the count is zero the serialized output
is literally the string targets=[] whatever the marshaller does. -/
theorem filterMissingTags_aggregation (repos : List (String × repoConfig))
    (marshal : List Target → Except String String) :
    (filterMissingTags repos).length = countMissingTargets repos ∧
    (∀ t ∈ filterMissingTags repos, t.remoteTagMissing = true) ∧
    (countMissingTargets repos = 0 →
      outputGitHubJSON marshal (filterMissingTags repos) = Except.ok "targets=[]") := by
  have hlen : (filterMissingTags repos).length = countMissingTargets repos := by
    induction repos with
    | nil => rfl
    | cons kr rest ih =>
      cases kr with
      | mk key repo =>
        unfold filterMissingTags countMissingTargets
        simp only [List.map_cons, List.sum_cons, List.length_append]
        rw [ih]
        simp [List.countP_eq_length_filter, countMissingTargets]
  have hmem : ∀ t ∈ filterMissingTags repos, t.remoteTagMissing = true := by
    clear hlen
    induction repos with
    | nil => intro t ht; simp [filterMissingTags] at ht
    | cons kr rest ih =>
      cases kr with
      | mk key repo =>
        intro t ht
        unfold filterMissingTags at ht
        rcases List.mem_append.mp ht with hin | hin
        · exact (List.mem_filter.mp hin).2
        · exact ih t hin
  refine ⟨hlen, hmem, fun hzero => ?_⟩
  unfold outputGitHubJSON
  rw [if_pos (hlen.trans hzero)]

/-- C5 witness: the concrete no-missing collection serializes to
targets=[], and the concrete mixed collection aggregates to exactly its
two flagged targets. -/
theorem filterMissingTags_aggregation_witness :
    countMissingTargets demoReposNoneMissing = 0 ∧
    outputGitHubJSON demoMarshal (filterMissingTags demoReposNoneMissing) =
      Except.ok "targets=[]" ∧
    (filterMissingTags demoReposSomeMissing).length = 2 := by
  refine ⟨by decide,
    (filterMissingTags_aggregation demoReposNoneMissing demoMarshal).2.2 (by decide), ?_⟩
  rw [(filterMissingTags_aggregation demoReposSomeMissing demoMarshal).1]
  decide

theorem addCalculatedFieldsTarget_fields (key : String) (repo : repoConfig) (t t2 : Target)
    (acc reg name tag : String)
    (hacc : t.awsAccountId = some acc) (hreg : t.awsRegion = some reg)
    (hname : repo.repoName = some name) (htag : repo.repoTag = some tag)
    (h : addCalculatedFieldsTarget key repo t = some t2) :
    t2.fullImageRef = acc ++ ".dkr.ecr." ++ reg ++ ".amazonaws.com/" ++ name ++ ":" ++ tag ∧
    (∀ role, t.awsRoleName = some role → 0 < role.length →
      t2.awsRoleARN = "arn:aws:iam::" ++ acc ++ ":role/" ++ role) ∧
    ((t.awsRoleName = none ∨ t.awsRoleName = some "") → t2.awsRoleARN = t.awsRoleARN) := by
  unfold addCalculatedFieldsTarget at h
  cases hrn : t.awsRoleName with
  | none =>
    rw [hrn] at h
    simp only [hacc, hreg, hname, htag, Option.pure_def, Option.bind_eq_bind,
      Option.some_bind] at h
    split_ifs at h <;> simp only [Option.some.injEq] at h <;> subst h <;>
      exact ⟨rfl, fun r2 hr2 _ => by simp at hr2, fun _ => rfl⟩
  | some role =>
    rw [hrn] at h
    by_cases hlen : 0 < role.length
    · simp only [if_pos hlen, hacc, hreg, hname, htag, Option.pure_def,
        Option.bind_eq_bind, Option.some_bind] at h
      split_ifs at h <;> simp only [Option.some.injEq] at h <;> subst h <;>
        refine ⟨rfl, fun r2 hr2 _ => ?_, fun hor => ?_⟩ <;> simp_all
    · simp only [if_neg hlen, hacc, hreg, hname, htag, Option.pure_def,
        Option.bind_eq_bind, Option.some_bind] at h
      split_ifs at h <;> simp only [Option.some.injEq] at h <;> subst h <;>
        refine ⟨rfl, fun r2 hr2 hl2 => ?_, fun _ => rfl⟩ <;> simp_all

/-- C7: whenever the per-target derived-field computation completes, it
sets fullImageRef from the resolved account id and region of the target
and the name and tag of the record in the
account.dkr.ecr.region.amazonaws.com/name:tag shape, sets roleARN in
the arn:aws:iam::account:role/name shape exactly when the role name is
non-empty, and otherwise leaves roleARN untouched (hence empty for a
freshly parsed target). -/
theorem addCalculatedFields_formulas (key : String) (repo : repoConfig) (t t2 : Target)
    (acc reg name tag : String)
    (hacc : t.awsAccountId = some acc) (hreg : t.awsRegion = some reg)
    (hname : repo.repoName = some name) (htag : repo.repoTag = some tag)
    (h : addCalculatedFieldsTarget key repo t = some t2) :
    t2.fullImageRef = acc ++ ".dkr.ecr." ++ reg ++ ".amazonaws.com/" ++ name ++ ":" ++ tag ∧
    (∀ role, t.awsRoleName = some role → 0 < role.length →
      t2.awsRoleARN = "arn:aws:iam::" ++ acc ++ ":role/" ++ role) ∧
    ((t.awsRoleName = none ∨ t.awsRoleName = some "") → t2.awsRoleARN = t.awsRoleARN) :=
  addCalculatedFieldsTarget_fields key repo t t2 acc reg name tag hacc hreg hname htag h

/-- C7 witness: the derived fields on a concrete resolved target. -/
theorem addCalculatedFields_formulas_witness :
    addCalculatedFieldsTarget "images/repo-1/config.yml" demoRepoCalc demoTargetCalc =
      some { awsAccountId := some "111111111111", awsRegion := some "eu-west-1",
             awsRoleName := some "deploy-role",
             awsRoleARN := "arn:aws:iam::111111111111:role/deploy-role",
             fullImageRef := "111111111111.dkr.ecr.eu-west-1.amazonaws.com/repo-1:alpine",
             remoteTagMissing := false, workingDirectory := "images/repo-1",
             targetPlatformStr := "linux/arm64,linux/amd64",
             buildArgsStr := "--build-arg VERSION=1.2.3" } ∧
    "111111111111.dkr.ecr.eu-west-1.amazonaws.com/repo-1:alpine" =
      "111111111111" ++ ".dkr.ecr." ++ "eu-west-1" ++ ".amazonaws.com/" ++ "repo-1" ++ ":"
        ++ "alpine" ∧
    "arn:aws:iam::111111111111:role/deploy-role" =
      "arn:aws:iam::" ++ "111111111111" ++ ":role/" ++ "deploy-role" := by
  have hcalc : addCalculatedFieldsTarget "images/repo-1/config.yml" demoRepoCalc demoTargetCalc =
      some { awsAccountId := some "111111111111", awsRegion := some "eu-west-1",
             awsRoleName := some "deploy-role",
             awsRoleARN := "arn:aws:iam::111111111111:role/deploy-role",
             fullImageRef := "111111111111.dkr.ecr.eu-west-1.amazonaws.com/repo-1:alpine",
             remoteTagMissing := false, workingDirectory := "images/repo-1",
             targetPlatformStr := "linux/arm64,linux/amd64",
             buildArgsStr := "--build-arg VERSION=1.2.3" } := by decide
  have hspec := addCalculatedFields_formulas "images/repo-1/config.yml" demoRepoCalc
    demoTargetCalc _ "111111111111" "eu-west-1" "repo-1" "alpine" rfl rfl rfl rfl hcalc
  exact ⟨hcalc, hspec.1.symm, (hspec.2.1 "deploy-role" rfl (by decide)).symm⟩

theorem validatePlatformEntries_error_mentions (key : String) (idx : Nat) (l : List String)
    (e : String) (h : validatePlatformEntries key idx l = Except.error e) :
    ∃ p q, e = p ++ key ++ q := by
  induction l generalizing idx with
  | nil => simp [validatePlatformEntries] at h
  | cons x rest ih =>
    unfold validatePlatformEntries at h
    split_ifs at h
    · injection h with he
      subst he
      exact ⟨"target_platforms cannot contain empty values for ", " index " ++ toString idx,
        by rw [String.append_assoc]⟩
    · exact ih (idx + 1) h

theorem validateBuildArgEntries_error_mentions (key : String) (l : List (String × String))
    (e : String) (h : validateBuildArgEntries key l = Except.error e) :
    ∃ p q, e = p ++ key ++ q := by
  induction l with
  | nil => simp [validateBuildArgEntries] at h
  | cons kv rest ih =>
    cases kv with
    | mk k arg =>
      unfold validateBuildArgEntries at h
      split_ifs at h
      · injection h with he
        subst he
        exact ⟨"build_args must have no empty values for ", " key " ++ k,
          by rw [String.append_assoc]⟩
      · exact ih h

theorem validateBuildArgs_error_mentions (key : String) (m : Option (List (String × String)))
    (e : String) (h : validateBuildArgs key m = Except.error e) :
    ∃ p q, e = p ++ key ++ q := by
  cases m with
  | none => simp [validateBuildArgs] at h
  | some l =>
    simp only [validateBuildArgs] at h
    split_ifs at h
    · injection h with he
      subst he
      exact ⟨"build_args must have at one key/pair when defined for ", "",
        by rw [String.append_empty]⟩
    · exact validateBuildArgEntries_error_mentions key l e h

theorem validateTargetEntries_error_mentions (key : String) (accSet regSet : Bool)
    (idx : Nat) (ts : List Target) (e : String)
    (h : validateTargetEntries key accSet regSet idx ts = Except.error e) :
    ∃ p q, e = p ++ key ++ q := by
  induction ts generalizing idx with
  | nil => simp [validateTargetEntries] at h
  | cons t rest ih =>
    unfold validateTargetEntries at h
    split_ifs at h
    · injection h with he
      subst he
      exact ⟨"aws_account_id not set for ",
        " target index " ++ toString idx ++ " and there is no default set",
        by simp [String.append_assoc]⟩
    · injection h with he
      subst he
      exact ⟨"aws_region not set for ",
        " target index " ++ toString idx ++ " and there is no default set",
        by simp [String.append_assoc]⟩
    · exact ih (idx + 1) h

theorem validateRecord_error_mentions (key : String) (repo : repoConfig) (e : String)
    (h : validateRecord key repo = Except.error e) : ∃ p q, e = p ++ key ++ q := by
  unfold validateRecord at h
  split_ifs at h
  · injection h with he
    subst he
    exact ⟨"repo_name not set for ", "", by rw [String.append_empty]⟩
  · injection h with he
    subst he
    exact ⟨"repo_tag not set for ", "", by rw [String.append_empty]⟩
  · injection h with he
    subst he
    exact ⟨"targets not set for ", " either at the child level or via defaults",
      by rw [String.append_assoc]⟩
  · injection h with he
    subst he
    exact ⟨"target_platforms not set for ", "", by rw [String.append_empty]⟩
  · split at h
    next e2 heq =>
      injection h with he
      subst he
      exact validatePlatformEntries_error_mentions key 0 repo.targetPlatforms e2 heq
    next heq =>
      split at h
      next e2 heq2 =>
        injection h with he
        subst he
        exact validateBuildArgs_error_mentions key repo.buildArgs e2 heq2
      next heq2 =>
        exact validateTargetEntries_error_mentions key _ _ 0 repo.targets e h

theorem validatePlatformEntries_error_of_mem (key : String) (l : List String)
    (hmem : "" ∈ l) : ∀ idx, ∃ e, validatePlatformEntries key idx l = Except.error e := by
  induction l with
  | nil => cases hmem
  | cons x rest ih =>
    intro idx
    unfold validatePlatformEntries
    by_cases hx : x = ""
    · exact ⟨_, by rw [if_pos hx]⟩
    · rw [if_neg hx]
      exact ih (List.mem_of_ne_of_mem (fun hc => hx hc.symm) hmem) (idx + 1)

theorem validateRecord_error_of_bad_platforms (key : String) (repo : repoConfig)
    (hbad : repo.targetPlatforms = [] ∨ "" ∈ repo.targetPlatforms) :
    ∃ e, validateRecord key repo = Except.error e := by
  unfold validateRecord
  split_ifs with h1 h2 h3 h4
  · exact ⟨_, rfl⟩
  · exact ⟨_, rfl⟩
  · exact ⟨_, rfl⟩
  · exact ⟨_, rfl⟩
  · rcases hbad with hnil | hmem
    · exact absurd (by rw [hnil]; rfl) h4
    · obtain ⟨e, he⟩ := validatePlatformEntries_error_of_mem key repo.targetPlatforms hmem 0
      rw [he]
      exact ⟨e, rfl⟩

theorem validate_error_of_mem (repos : List (String × repoConfig)) (key : String)
    (C : repoConfig) (e0 : String) (hmem : (key, C) ∈ repos)
    (hrec : validateRecord key C = Except.error e0) :
    ∃ e, validate repos = Except.error e := by
  induction repos with
  | nil => cases hmem
  | cons kr rest ih =>
    cases kr with
    | mk k r =>
      unfold validate
      cases hk : validateRecord k r with
      | error e2 => exact ⟨e2, rfl⟩
      | ok u =>
        cases u
        rcases List.mem_cons.mp hmem with heq | hmem2
        · cases heq
          rw [hrec] at hk
          cases hk
        · exact ih hmem2

/-- C8: a record whose platform list is empty or contains an empty entry
always makes validate fail over any collection containing it, and the
per-record validation error names the offending record by its path. -/
theorem validate_rejects_bad_platforms (repos : List (String × repoConfig)) (key : String)
    (C : repoConfig) (hmem : (key, C) ∈ repos)
    (hbad : C.targetPlatforms = [] ∨ "" ∈ C.targetPlatforms) :
    (∃ e, validate repos = Except.error e) ∧
    (∃ e p q, validateRecord key C = Except.error e ∧ e = p ++ key ++ q) := by
  obtain ⟨e0, he0⟩ := validateRecord_error_of_bad_platforms key C hbad
  obtain ⟨p, q, hpq⟩ := validateRecord_error_mentions key C e0 he0
  exact ⟨validate_error_of_mem repos key C e0 hmem he0, e0, p, q, he0, hpq⟩

/-- C8 witness: a concrete collection holding a record with an empty
platform entry is rejected. -/
theorem validate_rejects_bad_platforms_witness :
    ("images/bad/config.yml", cexChildEmptyPlatform) ∈
      [("images/bad/config.yml", cexChildEmptyPlatform)] ∧
    "" ∈ cexChildEmptyPlatform.targetPlatforms ∧
    ((∃ e, validate [("images/bad/config.yml", cexChildEmptyPlatform)] = Except.error e) ∧
      (∃ e p q, validateRecord "images/bad/config.yml" cexChildEmptyPlatform =
        Except.error e ∧ e = p ++ "images/bad/config.yml" ++ q)) :=
  ⟨List.mem_singleton.mpr rfl, by decide,
   validate_rejects_bad_platforms [("images/bad/config.yml", cexChildEmptyPlatform)]
     "images/bad/config.yml" cexChildEmptyPlatform (List.mem_singleton.mpr rfl)
     (Or.inr (by decide))⟩

/-- C9: evaluation at the failing input.  A child record that carries
record-level default fields but a target with a nil account id and
region passes resolution (the defaults file being empty) and validation,
yet the derived-field stage dereferences the nil account id pointer:
the none result models the Go nil-pointer panic, so the stage does have
a failure path on validated input. -/
theorem addCalculatedFields_nil_deref_on_validated :
    validateRecord "images/repo-1/config.yml"
      (mergeRepoConfig cexDefaultsBare cexChildNilTarget) = Except.ok () ∧
    ((mergeRepoConfig cexDefaultsBare cexChildNilTarget).targets.map
        fun t => t.awsAccountId) = [none] ∧
    addCalculatedFieldsRepo "images/repo-1/config.yml"
      (mergeRepoConfig cexDefaultsBare cexChildNilTarget) = none := by
  decide

theorem addCalculatedFieldsTarget_roleARN_of_empty (key : String) (repo : repoConfig)
    (t t2 : Target) (hrn : t.awsRoleName = none ∨ t.awsRoleName = some "")
    (h : addCalculatedFieldsTarget key repo t = some t2) :
    t2.awsRoleARN = t.awsRoleARN := by
  unfold addCalculatedFieldsTarget at h
  rcases hrn with hrn | hrn
  · rw [hrn] at h
    cases hacc : t.awsAccountId with
    | none => simp [hacc] at h
    | some acc =>
      cases hreg : t.awsRegion with
      | none => simp [hacc, hreg] at h
      | some reg =>
        cases hname : repo.repoName with
        | none => simp [hacc, hreg, hname] at h
        | some name =>
          cases htag : repo.repoTag with
          | none => simp [hacc, hreg, hname, htag] at h
          | some tag =>
            simp only [hacc, hreg, hname, htag, Option.pure_def, Option.bind_eq_bind,
              Option.some_bind] at h
            split_ifs at h <;> (simp only [Option.some.injEq] at h; subst h; rfl)
  · rw [hrn] at h
    dsimp only at h
    rw [if_neg (by decide : ¬ (0 : Nat) < "".length)] at h
    cases hacc : t.awsAccountId with
    | none => simp [hacc] at h
    | some acc =>
      cases hreg : t.awsRegion with
      | none => simp [hacc, hreg] at h
      | some reg =>
        cases hname : repo.repoName with
        | none => simp [hacc, hreg, hname] at h
        | some name =>
          cases htag : repo.repoTag with
          | none => simp [hacc, hreg, hname, htag] at h
          | some tag =>
            simp only [hacc, hreg, hname, htag, Option.pure_def, Option.bind_eq_bind,
              Option.some_bind] at h
            split_ifs at h <;> (simp only [Option.some.injEq] at h; subst h; rfl)

/-- C10: a role name declared as the explicit empty string survives
resolution unchanged even when a non-empty default role name exists, the
role ARN of such a target stays empty through the derived-field stage,
and the ECR client for it is built without any role-assumption call. -/
theorem emptyRoleName_suppresses_default (D : repoConfig) (t : Target)
    (hrole : t.awsRoleName = some "") (harn : t.awsRoleARN = "") :
    (mergeTarget D t).awsRoleName = some "" ∧
    (∀ key repo t2, addCalculatedFieldsTarget key repo (mergeTarget D t) = some t2 →
      t2.awsRoleARN = "") ∧
    (∀ s, setupECRClient (mergeTarget D t) = some s →
      s.assumeRole = false ∧ s.roleARN = "") := by
  have hrn : (mergeTarget D t).awsRoleName = some "" := by
    rw [mergeTarget_awsRoleName]
    simp [hrole]
  have harn2 : (mergeTarget D t).awsRoleARN = "" := by
    rw [mergeTarget_awsRoleARN]
    exact harn
  refine ⟨hrn, ?_, ?_⟩
  · intro key repo t2 h
    rw [addCalculatedFieldsTarget_roleARN_of_empty key repo (mergeTarget D t) t2
      (Or.inr hrn) h]
    exact harn2
  · intro s hs
    unfold setupECRClient at hs
    cases hreg : (mergeTarget D t).awsRegion with
    | none => simp [hreg] at hs
    | some reg =>
      simp only [hreg, hrn, Option.pure_def, Option.bind_eq_bind, Option.some_bind,
        ne_eq, not_true_eq_false, if_false, Option.some.injEq] at hs
      subst hs
      exact ⟨rfl, rfl⟩

/-- C10 witness: concrete suppression of the non-empty default role by
an explicit empty role name. -/
theorem emptyRoleName_suppresses_default_witness :
    demoEmptyRoleTarget.awsRoleName = some "" ∧
    demoEmptyRoleTarget.awsRoleARN = "" ∧
    strPtrSet demoDefaults.defaultAwsRoleName = true ∧
    (mergeTarget demoDefaults demoEmptyRoleTarget).awsRoleName = some "" ∧
    ((addCalculatedFieldsTarget "images/repo-1/config.yml" demoRepoCalc
        (mergeTarget demoDefaults demoEmptyRoleTarget)).map fun t2 => t2.awsRoleARN) =
      some "" ∧
    ((setupECRClient (mergeTarget demoDefaults demoEmptyRoleTarget)).map
        fun s => s.assumeRole) = some false := by
  have hspec := emptyRoleName_suppresses_default demoDefaults demoEmptyRoleTarget rfl rfl
  refine ⟨rfl, rfl, by decide, hspec.1, ?_, ?_⟩
  · cases hcalc : addCalculatedFieldsTarget "images/repo-1/config.yml" demoRepoCalc
      (mergeTarget demoDefaults demoEmptyRoleTarget) with
    | none => exact absurd hcalc (by decide)
    | some t2 =>
      simp [hspec.2.1 "images/repo-1/config.yml" demoRepoCalc t2 hcalc]
  · cases hs : setupECRClient (mergeTarget demoDefaults demoEmptyRoleTarget) with
    | none => exact absurd hs (by decide)
    | some s =>
      simp [(hspec.2.2 s hs).1]
